import Mathlib

/-!
Verification development for the telegram music bot (src/bot.js).

The source is a single JavaScript file. Pure helpers (spotifyUrlToUri,
formatUser, formatTrackInfo, resolveTrack) are embedded as Lean functions
over lists of characters. The JavaScript regular expressions are embedded
as explicit scanning functions. Event handlers are embedded as functions
from inputs to lists of emitted external effects, with exceptional exit
(a rejected awaited promise escaping the async handler) modelled as a
Boolean flag. External collaborators (Spotify track lookup, the queue
endpoint, durable storage) are parameters or effect constructors.
-/

/-- A character of the JavaScript word class `\w`, namely ASCII letters,
digits and the underscore. -/
def isWordChar (c : Char) : Bool := c.isAlpha || c.isDigit || c == '_'

/-- Longest run of word characters at the head of the list: the text the
greedy `\w+` consumes at a match position. -/
def takeWord : List Char → List Char
  | [] => []
  | c :: cs => if isWordChar c then c :: takeWord cs else []

/-- What is left after `takeWord`. -/
def afterWord : List Char → List Char
  | [] => []
  | c :: cs => if isWordChar c then afterWord cs else c :: cs

/-- Match a literal pattern at the head of the input, returning the rest. -/
def matchLit : List Char → List Char → Option (List Char)
  | [], s => some s
  | _ :: _, [] => none
  | p :: ps, c :: cs => if c = p then matchLit ps cs else none

/-- The literal part of the URL regex before the optional character. -/
def tpat0 : List Char := ("http").data

/-- The literal tail shared by both alternatives of the URL regex. -/
def tpatC : List Char := ':' :: (("//open.spotify.com/track/").data)

/-- The tail of the URL regex when the optional character is taken. -/
def tpatS : List Char := 's' :: tpatC

/-- The full literal of the regex without the optional character. -/
def tpatHttp : List Char := ("http://open.spotify.com/track/").data

/-- The full literal of the regex with the optional character. -/
def tpatHttps : List Char := ("https://open.spotify.com/track/").data

/-- One attempt of the regex of spotifyUrlToUri at a fixed position:
literal "http", optional "s" (tried first, with backtracking), literal
"://open.spotify.com/track/", then the captured `\w+`. -/
def tryMatchAt (s : List Char) : Option (List Char) :=
  match matchLit tpat0 s with
  | none => none
  | some s1 =>
    match matchLit tpatS s1 with
    | some rest => if takeWord rest = [] then none else some (takeWord rest)
    | none =>
      match matchLit tpatC s1 with
      | some rest => if takeWord rest = [] then none else some (takeWord rest)
      | none => none

/-- Leftmost match of the unanchored URL regex over the whole input,
returning the captured group (the track id). -/
def findTrackId : List Char → Option (List Char)
  | [] => none
  | c :: cs =>
    match tryMatchAt (c :: cs) with
    | some w => some w
    | none => findTrackId cs

/-- Embeds spotifyUrlToUri from src/bot.js. The input is an Option so a
missing field (undefined or null message text) is representable; the
falsiness test of JavaScript also rejects the empty string. -/
def spotifyUrlToUri (url : Option String) : Option String :=
  match url with
  | none => none
  | some u =>
    if u = ("") then none
    else
      match findTrackId u.data with
      | some w => some (("spotify:track:") ++ String.mk w)
      | none => none

/-- Specification-side predicate: the text contains an occurrence of the
full web track URL form, that is one of the two literal URL heads followed
by at least one identifier character. -/
def hasTrackUrl (s : List Char) : Prop :=
  ∃ pre pat c rest, (pat = tpatHttp ∨ pat = tpatHttps) ∧
    s = pre ++ (pat ++ (c :: rest)) ∧ isWordChar c = true

theorem takeWord_append_afterWord : ∀ s : List Char, takeWord s ++ afterWord s = s := by
  intro s
  induction s with
  | nil => rfl
  | cons c cs ih =>
    by_cases h : isWordChar c <;> simp [takeWord, afterWord, h, ih]

/-- The literal of the regex of resolveTrack. -/
def trackUriPat : List Char := ("spotify:track:").data

/-- Leftmost match of the unanchored regex of resolveTrack, returning the
captured track id. -/
def scanTrackUri : List Char → Option (List Char)
  | [] => none
  | c :: cs =>
    match matchLit trackUriPat (c :: cs) with
    | some rest => if takeWord rest = [] then none else some (takeWord rest)
    | none => scanTrackUri cs

/-- A Telegram user as the handlers see it: first name plus an optional
handle. An empty handle string is falsy in JavaScript, so it is kept
distinct from an absent one. -/
structure TUser where
  first_name : String
  username : Option String
deriving DecidableEq

/-- Embeds formatUser from src/bot.js. -/
def formatUser (u : TUser) : String :=
  match u.username with
  | some un => if un = ("") then u.first_name else u.first_name ++ (" (@") ++ un ++ (")")
  | none => u.first_name

/-- The track payload returned by the external getTrack call, reduced to
the fields the bot reads. -/
structure TrackBody where
  name : String
  artistNames : List String
  spotifyExternalUrl : String
deriving DecidableEq

/-- The record formatTrackInfo builds from a track payload. -/
structure TrackDescription where
  name : String
  artists : String
deriving DecidableEq

/-- Embeds formatTrackInfo from src/bot.js: the artist names joined with
a comma and a space. -/
def formatTrackInfo (t : TrackBody) : TrackDescription :=
  { name := t.name, artists := String.intercalate (", ") t.artistNames }

/-- Outcome of resolveTrack: the regex did not match (the function returns
undefined), the awaited getTrack call rejected (the exception propagates),
or a track payload. -/
inductive LookupResult where
  | noMatch
  | failed
  | ok (t : TrackBody)
deriving DecidableEq

/-- Embeds resolveTrack from src/bot.js. The external Spotify client is a
parameter mapping a track id to a payload, with none meaning the call
rejects. -/
def resolveTrack (lookup : String → Option TrackBody) (uri : String) : LookupResult :=
  match scanTrackUri uri.data with
  | none => LookupResult.noMatch
  | some id =>
    match lookup (String.mk id) with
    | none => LookupResult.failed
    | some t => LookupResult.ok t

/-- The configured voting chat id from src/bot.js. -/
def votingGroup : String := "-1002454626909"

/-- The configured voting thread id from src/bot.js. -/
def votingGroupThread : String := "637"

/-- The configured flag from src/bot.js: resolved vote messages are edited
rather than deleted. -/
def deleteMessageAfterAcceptDecline : Bool := false

/-- Embeds isVotingGroup from src/bot.js. -/
def isVotingGroup (id : String) : Bool := id == votingGroup

/-- External effects the message and callback handlers can emit, in order. -/
inductive Effect where
  | reply (text : String)
  | sendMessage (chatId : String) (text : String) (acceptData : String)
      (declineData : String) (urlButton : String) (threadId : Option String)
  | addToQueue (uri : String)
  | editMessageText (text : String)
  | editMessageReplyMarkup
  | deleteMessage
deriving DecidableEq

/-- The reply sent when no Spotify URL is found in the message. -/
def invalidLinkReply : String := "Keine gültige Spotify-URL. Sende /help für Hilfe."

/-- The reply sent by the rate limiter configuration when a message is
denied. -/
def rateLimitReply : String := "Limit überschritten, bitte warten!"

/-- Embeds the body of the message handler of src/bot.js (after the rate
limit middleware): effects emitted plus a flag that is true when an awaited
promise rejected and the exception escaped the handler. -/
def handleMessageBody (lookup : String → Option TrackBody) (chatId : String)
    (mtext : Option String) (sender : TUser) : List Effect × Bool :=
  if isVotingGroup chatId then ([], false)
  else
    match spotifyUrlToUri mtext with
    | none => ([Effect.reply invalidLinkReply], false)
    | some uri =>
      match resolveTrack lookup uri with
      | LookupResult.failed => ([], true)
      | LookupResult.noMatch => ([], true)
      | LookupResult.ok t =>
        ([Effect.sendMessage votingGroup
            (("Anfrage von ") ++ formatUser sender ++ ("\n") ++
              (formatTrackInfo t).name ++ (" • ") ++ (formatTrackInfo t).artists)
            (("accept:") ++ uri) ("decline") t.spotifyExternalUrl
            (if votingGroupThread = ("") then none else some votingGroupThread),
          Effect.reply ((formatTrackInfo t).name ++ (" von ") ++
            (formatTrackInfo t).artists ++ (" wurde angefragt."))], false)

/-- Modelled from the spec: the rate limiter implementation lives in the
telegraf-ratelimit dependency, not under src/; spec section 4.3 describes
it as a sliding window that on each call prunes timestamps older than
now minus the window width. src/bot.js supplies the configuration
(window, limit, the wait reply). -/
def pruneW (W now : Nat) (st : List Nat) : List Nat :=
  st.filter (fun u => now - u ≤ W)

/-- Modelled from the spec: one rate limiter call. After pruning, if the
remaining count is below the limit the call is allowed and now is
recorded; otherwise it is denied and nothing is recorded. -/
def limiterStep (W N : Nat) (st : List Nat) (now : Nat) : Bool × List Nat :=
  if (pruneW W now st).length < N then (true, now :: pruneW W now st)
  else (false, pruneW W now st)

/-- The submission times the limiter allows out of a call sequence. -/
def allowedIn (W N : Nat) : List Nat → List Nat → List Nat
  | _, [] => []
  | st, t :: ts =>
    if (limiterStep W N st t).1 then t :: allowedIn W N (limiterStep W N st t).2 ts
    else allowedIn W N (limiterStep W N st t).2 ts

/-- Membership of a time in the closed window starting at a. -/
def inWin (W a t : Nat) : Bool := decide (a ≤ t) && decide (t ≤ a + W)

/-- The configured window width of trackLimitConfig, in milliseconds. -/
def trackLimitWindow : Nat := 5 * 60 * 1000

/-- The configured maximum count of trackLimitConfig. -/
def trackLimitCount : Nat := 3

/-- One inbound message for one user: the rate limit middleware with the
track configuration runs first (on denial it replies and stops), then the
message handler body. Returns the new per-user window, the effects, and
the escaped-exception flag. -/
def handleIncoming (lookup : String → Option TrackBody) (st : List Nat) (now : Nat)
    (chatId : String) (mtext : Option String) (sender : TUser) :
    List Nat × List Effect × Bool :=
  if (limiterStep trackLimitWindow trackLimitCount st now).1 then
    ((limiterStep trackLimitWindow trackLimitCount st now).2,
     (handleMessageBody lookup chatId mtext sender).1,
     (handleMessageBody lookup chatId mtext sender).2)
  else
    ((limiterStep trackLimitWindow trackLimitCount st now).2,
     [Effect.reply rateLimitReply], false)

/-- Runs a sequence of inbound messages of one user, threading the rate
limiter window, and collects each message's emitted effects. -/
def processMessages (lookup : String → Option TrackBody) :
    List Nat → List (Nat × String × Option String × TUser) → List (List Effect)
  | _, [] => []
  | st, m :: rest =>
    (handleIncoming lookup st m.1 m.2.1 m.2.2.1 m.2.2.2).2.1 ::
      processMessages lookup (handleIncoming lookup st m.1 m.2.1 m.2.2.1 m.2.2.2).1 rest

/-- Embeds the accept callback handler of src/bot.js. The handler runs
addToQueue and chains the rest on its success (queueOk); inside the
continuation a failed track lookup makes the awaited promise reject, so
nothing after the queue call is emitted. With the configured flag false,
the handler edits the vote message text and clears the buttons. There is
no per-request state: the handler runs in full on every accept event. -/
def acceptActionEffects (lookup : String → Option TrackBody) (queueOk : Bool)
    (uri : String) (voter : TUser) (msgText : String) : List Effect :=
  Effect.addToQueue uri ::
    (if queueOk then
      match resolveTrack lookup uri with
      | LookupResult.failed => []
      | LookupResult.noMatch =>
        Effect.reply (("Lied zur Queue hinzugefügt: ") ++ uri) ::
          (if deleteMessageAfterAcceptDecline then [Effect.deleteMessage]
           else [Effect.editMessageText (("Von ") ++ formatUser voter ++
                   (" abgelehnt: ") ++ msgText),
                 Effect.editMessageReplyMarkup])
      | LookupResult.ok t =>
        Effect.reply (("Lied zur Queue hinzugefügt: ") ++ (formatTrackInfo t).name ++
            (" • ") ++ (formatTrackInfo t).artists) ::
          (if deleteMessageAfterAcceptDecline then [Effect.deleteMessage]
           else [Effect.editMessageText (("Von ") ++ formatUser voter ++
                   (" abgelehnt: ") ++ msgText),
                 Effect.editMessageReplyMarkup])
     else [])

/-- Embeds the decline callback handler of src/bot.js: unconditional edit
(or delete), no per-request state consulted. -/
def declineActionEffects (voter : TUser) (msgText : String) : List Effect :=
  if deleteMessageAfterAcceptDecline then [Effect.deleteMessage]
  else [Effect.editMessageText (("Von ") ++ formatUser voter ++ (" abgelehnt: ") ++ msgText),
        Effect.editMessageReplyMarkup]

/-- The anchored literal head of the accept action pattern. -/
def acceptPat : List Char := ("accept:spotify:track:").data

/-- Embeds the accept action trigger: callback data is matched against the
anchored regex and the first capture group (the track URI) is returned. -/
def acceptActionMatch (s : String) : Option String :=
  match matchLit acceptPat s.data with
  | none => none
  | some rest =>
    if takeWord rest = [] then none
    else some (String.mk ((("spotify:track:").data) ++ takeWord rest))

/-- The token state of src/bot.js: the access and refresh tokens held by
the spotify-web-api-node client object, the module level expiry timestamp,
and the module level token variables loaded from storage at startup. -/
structure SpotifyState where
  apiAccessToken : Option String
  apiRefreshToken : Option String
  tokenExpires : Nat
  spotifyRefreshToken : Option String
  spotifyAccessToken : Option String
deriving DecidableEq

/-- External effects of the token lifecycle functions. -/
inductive TokenEffect where
  | refreshCall (refreshToken : Option String) (accessToken : Option String)
  | storageSet (key : String) (value : String)
deriving DecidableEq

/-- Embeds the synchronous part of refreshSpotifyToken from src/bot.js:
when the expiry has passed (or force is set), the passed tokens are
installed on the client and a refresh call is issued (fire and forget). -/
def refreshSpotifyTokenStep (st : SpotifyState) (now : Nat)
    (refreshToken accessToken : Option String) (force : Bool) :
    SpotifyState × List TokenEffect :=
  if st.tokenExpires ≤ now || force then
    ({ st with apiRefreshToken := refreshToken, apiAccessToken := accessToken },
     [TokenEffect.refreshCall refreshToken accessToken])
  else (st, [])

/-- Embeds the success continuation of refreshAccessToken in
refreshSpotifyToken: the new access token is installed and the expiry
updated. No storage write occurs in this path. -/
def refreshSuccess (st : SpotifyState) (newAccessToken : String)
    (expiresIn : Nat) (now : Nat) : SpotifyState × List TokenEffect :=
  ({ st with apiAccessToken := some newAccessToken,
             tokenExpires := now + expiresIn * 1000 }, [])

/-- Embeds getSpotify from src/bot.js (the client object exists after
startup): with refresh true it calls refreshSpotifyToken with the module
level token variables and returns the client without waiting. -/
def getSpotifyStep (st : SpotifyState) (now : Nat) (refresh : Bool) :
    SpotifyState × List TokenEffect :=
  if refresh then
    refreshSpotifyTokenStep st now st.spotifyRefreshToken st.spotifyAccessToken false
  else (st, [])

/-- Embeds the success continuation of the authorization code grant in the
spotifytoken command of src/bot.js: the granted tokens are installed on the
client and persisted. The expiry timestamp and the module level token
variables are not updated. -/
def spotifytokenGrantSuccess (st : SpotifyState) (accessToken refreshToken : String) :
    SpotifyState × List TokenEffect :=
  ({ st with apiAccessToken := some accessToken, apiRefreshToken := some refreshToken },
   [TokenEffect.storageSet ("spotify_refresh_token") refreshToken,
    TokenEffect.storageSet ("spotify_access_token") accessToken])

/-- The token state right after module load at time t0: the expiry is
initialised to the current time and the stored tokens are loaded. -/
def startupState (t0 : Nat) (storedRefresh storedAccess : Option String) : SpotifyState :=
  { apiAccessToken := none, apiRefreshToken := none, tokenExpires := t0,
    spotifyRefreshToken := storedRefresh, spotifyAccessToken := storedAccess }

/-- Recognises a queue append effect. -/
def isQueueEffect : Effect → Bool
  | Effect.addToQueue _ => true
  | _ => false

/-- Recognises a vote message post. -/
def isSendMessageEffect : Effect → Bool
  | Effect.sendMessage _ _ _ _ _ _ => true
  | _ => false

/-- Recognises a durable storage write. -/
def isStorageEffect : TokenEffect → Bool
  | TokenEffect.storageSet _ _ => true
  | _ => false

/-- A lookup oracle that resolves every id to a fixed track. -/
def exampleLookup : String → Option TrackBody :=
  fun _ => some { name := "Song", artistNames := ["Artist"],
                  spotifyExternalUrl := "https://open.spotify.com/track/abc" }

/-- A lookup oracle whose getTrack call always rejects. -/
def failingLookup : String → Option TrackBody := fun _ => none

/-- The requester of the rate limit scenario. -/
def scenarioUser : TUser := { first_name := "Max", username := some ("max") }

/-- Four submissions of the same user within five minutes, each with a
valid track link, in a private chat. -/
def scenarioMsgs : List (Nat × String × Option String × TUser) :=
  [(0, ("42"), some ("https://open.spotify.com/track/abc"), scenarioUser),
   (60000, ("42"), some ("https://open.spotify.com/track/abc"), scenarioUser),
   (120000, ("42"), some ("https://open.spotify.com/track/abc"), scenarioUser),
   (180000, ("42"), some ("https://open.spotify.com/track/abc"), scenarioUser)]

theorem takeWord_cons_of_word {c : Char} (cs : List Char) (h : isWordChar c = true) :
    takeWord (c :: cs) = c :: takeWord cs := by
  simp [takeWord, h]

theorem takeWord_cons_of_not_word {c : Char} (cs : List Char) (h : isWordChar c = false) :
    takeWord (c :: cs) = [] := by
  simp [takeWord, h]

theorem takeWord_all_word : ∀ s : List Char, ∀ c ∈ takeWord s, isWordChar c = true := by
  intro s
  induction s with
  | nil => intro c hc; simp [takeWord] at hc
  | cons a cs ih =>
    intro c hc
    cases hw : isWordChar a with
    | false => rw [takeWord_cons_of_not_word cs hw] at hc; simp at hc
    | true =>
      rw [takeWord_cons_of_word cs hw] at hc
      rcases List.mem_cons.mp hc with hc | hc
      · rw [hc]; exact hw
      · exact ih c hc

theorem takeWord_of_all_word : ∀ s : List Char, (∀ c ∈ s, isWordChar c = true) → takeWord s = s := by
  intro s
  induction s with
  | nil => intro _; rfl
  | cons a cs ih =>
    intro h
    have ha : isWordChar a = true := h a (by simp)
    rw [takeWord_cons_of_word cs ha]
    rw [ih (fun c hc => h c (by simp [hc]))]

theorem matchLit_eq_some : ∀ (p s r : List Char), matchLit p s = some r ↔ s = p ++ r := by
  intro p
  induction p with
  | nil =>
    intro s r
    simp [matchLit]
  | cons a ps ih =>
    intro s r
    cases s with
    | nil => simp [matchLit]
    | cons c cs =>
      by_cases h : c = a
      · subst h
        simp [matchLit, ih]
      · simp [matchLit, h]

theorem tpatHttps_decomp : tpatHttps = tpat0 ++ tpatS := by decide

theorem tpatHttp_decomp : tpatHttp = tpat0 ++ tpatC := by decide

theorem tryMatchAt_sound {s w : List Char} (h : tryMatchAt s = some w) :
    ∃ pat rest, (pat = tpatHttp ∨ pat = tpatHttps) ∧ s = pat ++ (w ++ rest) ∧
      w ≠ [] ∧ (∀ c ∈ w, isWordChar c = true) := by
  unfold tryMatchAt at h
  cases h0 : matchLit tpat0 s with
  | none => simp only [h0] at h; exact Option.noConfusion h
  | some s1 =>
    simp only [h0] at h
    have hs : s = tpat0 ++ s1 := (matchLit_eq_some tpat0 s s1).mp h0
    cases h1 : matchLit tpatS s1 with
    | some rest =>
      simp only [h1] at h
      have hs1 : s1 = tpatS ++ rest := (matchLit_eq_some tpatS s1 rest).mp h1
      by_cases he : takeWord rest = []
      · rw [if_pos he] at h; exact absurd h (by simp)
      · rw [if_neg he] at h
        have hw : w = takeWord rest := by
          have hx := h; simp at hx; exact hx.symm
        refine ⟨tpatHttps, afterWord rest, Or.inr rfl, ?_, ?_, ?_⟩
        · rw [hs, hs1, tpatHttps_decomp, List.append_assoc]
          rw [hw, takeWord_append_afterWord]
        · rw [hw]; exact he
        · intro c hc; rw [hw] at hc; exact takeWord_all_word rest c hc
    | none =>
      simp only [h1] at h
      cases h2 : matchLit tpatC s1 with
      | some rest =>
        simp only [h2] at h
        have hs1 : s1 = tpatC ++ rest := (matchLit_eq_some tpatC s1 rest).mp h2
        by_cases he : takeWord rest = []
        · rw [if_pos he] at h; exact absurd h (by simp)
        · rw [if_neg he] at h
          have hw : w = takeWord rest := by
            have hx := h; simp at hx; exact hx.symm
          refine ⟨tpatHttp, afterWord rest, Or.inl rfl, ?_, ?_, ?_⟩
          · rw [hs, hs1, tpatHttp_decomp, List.append_assoc]
            rw [hw, takeWord_append_afterWord]
          · rw [hw]; exact he
          · intro c hc; rw [hw] at hc; exact takeWord_all_word rest c hc
      | none => simp only [h2] at h; exact Option.noConfusion h

theorem tryMatchAt_of_https {c : Char} {rest : List Char} (hw : isWordChar c = true) :
    tryMatchAt (tpatHttps ++ (c :: rest)) = some (c :: takeWord rest) := by
  have h0 : matchLit tpat0 (tpatHttps ++ (c :: rest)) = some (tpatS ++ (c :: rest)) := by
    rw [matchLit_eq_some, tpatHttps_decomp, List.append_assoc]
  have h1 : matchLit tpatS (tpatS ++ (c :: rest)) = some (c :: rest) := by
    rw [matchLit_eq_some]
  unfold tryMatchAt
  simp only [h0, h1]
  rw [takeWord_cons_of_word rest hw]
  simp

theorem tryMatchAt_of_http {c : Char} {rest : List Char} (hw : isWordChar c = true) :
    tryMatchAt (tpatHttp ++ (c :: rest)) = some (c :: takeWord rest) := by
  have h0 : matchLit tpat0 (tpatHttp ++ (c :: rest)) = some (tpatC ++ (c :: rest)) := by
    rw [matchLit_eq_some, tpatHttp_decomp, List.append_assoc]
  have h1 : matchLit tpatS (tpatC ++ (c :: rest)) = none := by
    cases hm : matchLit tpatS (tpatC ++ (c :: rest)) with
    | none => rfl
    | some r2 =>
      have heq : tpatC ++ (c :: rest) = tpatS ++ r2 :=
        (matchLit_eq_some tpatS (tpatC ++ (c :: rest)) r2).mp hm
      simp only [tpatC, tpatS, List.cons_append, List.cons.injEq] at heq
      exact absurd heq.1 (by decide)
  have h2 : matchLit tpatC (tpatC ++ (c :: rest)) = some (c :: rest) := by
    rw [matchLit_eq_some]
  unfold tryMatchAt
  simp only [h0, h1, h2]
  rw [takeWord_cons_of_word rest hw]
  simp

theorem findTrackId_sound : ∀ (s w : List Char), findTrackId s = some w →
    ∃ pre pat rest, (pat = tpatHttp ∨ pat = tpatHttps) ∧
      s = pre ++ (pat ++ (w ++ rest)) ∧ w ≠ [] ∧ (∀ c ∈ w, isWordChar c = true) := by
  intro s
  induction s with
  | nil => intro w h; exact Option.noConfusion h
  | cons c cs ih =>
    intro w h
    unfold findTrackId at h
    cases htm : tryMatchAt (c :: cs) with
    | some w2 =>
      simp only [htm] at h
      have hw : w2 = w := by simpa using h
      rcases tryMatchAt_sound htm with ⟨pat, rest, hp, heq, hne, hall⟩
      rw [hw] at heq hne hall
      exact ⟨[], pat, rest, hp, by simpa using heq, hne, hall⟩
    | none =>
      simp only [htm] at h
      rcases ih w h with ⟨pre, pat, rest, hp, heq, hne, hall⟩
      exact ⟨c :: pre, pat, rest, hp, by rw [List.cons_append, ← heq], hne, hall⟩

theorem hasTrackUrl_nil : ¬ hasTrackUrl ([]) := by
  rintro ⟨pre, pat, c, rest, hp, heq, hw⟩
  have := heq.symm
  simp at this

theorem hasTrackUrl_findTrackId : ∀ s : List Char, hasTrackUrl s → findTrackId s ≠ none := by
  intro s
  induction s with
  | nil => intro h; exact absurd h hasTrackUrl_nil
  | cons c0 cs ih =>
    rintro ⟨pre, pat, c, rest, hp, heq, hw⟩
    cases pre with
    | nil =>
      simp only [List.nil_append] at heq
      have htm : tryMatchAt (c0 :: cs) = some (c :: takeWord rest) := by
        rw [heq]
        rcases hp with hp | hp
        · rw [hp]; exact tryMatchAt_of_http hw
        · rw [hp]; exact tryMatchAt_of_https hw
      unfold findTrackId
      simp only [htm]
      simp
    | cons p0 pre2 =>
      rw [List.cons_append] at heq
      have hc0 : c0 = p0 := (List.cons.injEq _ _ _ _ ▸ heq).1
      have hcs : cs = pre2 ++ (pat ++ (c :: rest)) := (List.cons.injEq _ _ _ _ ▸ heq).2
      have hcs2 : hasTrackUrl cs := ⟨pre2, pat, c, rest, hp, hcs, hw⟩
      unfold findTrackId
      cases htm : tryMatchAt (c0 :: cs) with
      | some w => simp
      | none => simp only [htm]; exact ih hcs2

/-- Claim C2: every input containing the full web track URL (with or
without a trailing query string) parses to the canonical URI with the id
copied verbatim from the URL, every input without such a URL parses to no
match rather than an error, and the concrete scenario link parses to its
canonical URI. -/
theorem c2_parse_contract :
    (∀ s : String, ¬ hasTrackUrl s.data → spotifyUrlToUri (some s) = none)
    ∧ (∀ (s u : String), spotifyUrlToUri (some s) = some u →
        ∃ w pre pat rest, (pat = tpatHttp ∨ pat = tpatHttps) ∧
          s.data = pre ++ (pat ++ (w ++ rest)) ∧ w ≠ [] ∧
          (∀ c ∈ w, isWordChar c = true) ∧ u = ("spotify:track:") ++ String.mk w)
    ∧ (∀ s : String, hasTrackUrl s.data → spotifyUrlToUri (some s) ≠ none)
    ∧ spotifyUrlToUri (some ("https://open.spotify.com/track/5hvIZF56tE8sAwMA9cKmQQ?si=abc"))
        = some ("spotify:track:5hvIZF56tE8sAwMA9cKmQQ") := by
  refine ⟨?_, ?_, ?_, by decide⟩
  · intro s hn
    simp only [spotifyUrlToUri]
    by_cases he : s = ("")
    · rw [if_pos he]
    · rw [if_neg he]
      cases hf : findTrackId s.data with
      | none => rfl
      | some w =>
        exfalso
        rcases findTrackId_sound s.data w hf with ⟨pre, pat, rest, hp, heq, hne, hall⟩
        cases w with
        | nil => exact hne rfl
        | cons c w2 =>
          exact hn ⟨pre, pat, c, w2 ++ rest, hp, by rw [heq]; simp,
            hall c (by simp)⟩
  · intro s u hp
    simp only [spotifyUrlToUri] at hp
    by_cases he : s = ("")
    · rw [if_pos he] at hp; exact Option.noConfusion hp
    · rw [if_neg he] at hp
      cases hf : findTrackId s.data with
      | none => simp only [hf] at hp; exact Option.noConfusion hp
      | some w =>
        simp only [hf] at hp
        have hu : (("spotify:track:") ++ String.mk w) = u := by simpa using hp
        rcases findTrackId_sound s.data w hf with ⟨pre, pat, rest, hp2, heq, hne, hall⟩
        exact ⟨w, pre, pat, rest, hp2, heq, hne, hall, hu.symm⟩
  · intro s h
    have hf : findTrackId s.data ≠ none := hasTrackUrl_findTrackId s.data h
    have he : ¬ (s = ("")) := by
      intro he; rw [he] at hf; exact hf rfl
    simp only [spotifyUrlToUri]
    rw [if_neg he]
    cases hfx : findTrackId s.data with
    | none => exact absurd hfx hf
    | some w => simp

theorem c2_parse_contract_witness :
    spotifyUrlToUri (some ("https://open.spotify.com/track/xyz")) ≠ none :=
  c2_parse_contract.2.2.1 ("https://open.spotify.com/track/xyz")
    ⟨[], tpatHttps, 'x', ['y', 'z'], Or.inr rfl, by decide, by decide⟩

/-- Claim C10: any URI produced by spotifyUrlToUri survives the round trip
through the accept button: the callback data built at posting time matches
the accept action pattern and the captured group is exactly the URI. -/
theorem c10_roundtrip : ∀ (mtext : Option String) (u : String),
    spotifyUrlToUri mtext = some u →
    acceptActionMatch (("accept:") ++ u) = some u := by
  intro mtext u hp
  cases mtext with
  | none => exact Option.noConfusion hp
  | some s =>
    simp only [spotifyUrlToUri] at hp
    by_cases he : s = ("")
    · rw [if_pos he] at hp; exact Option.noConfusion hp
    · rw [if_neg he] at hp
      cases hf : findTrackId s.data with
      | none => simp only [hf] at hp; exact Option.noConfusion hp
      | some w =>
        simp only [hf] at hp
        have hu : (("spotify:track:") ++ String.mk w) = u := by simpa using hp
        rcases findTrackId_sound s.data w hf with ⟨pre, pat, rest, hp2, heq, hne, hall⟩
        rw [← hu]
        have hdata : ((("accept:") ++ (("spotify:track:") ++ String.mk w)) : String).data
            = acceptPat ++ w := by
          show ("accept:").data ++ (("spotify:track:").data ++ w) = acceptPat ++ w
          rw [show acceptPat = ("accept:").data ++ ("spotify:track:").data from by decide,
            List.append_assoc]
        unfold acceptActionMatch
        rw [hdata]
        have hm : matchLit acceptPat (acceptPat ++ w) = some w :=
          (matchLit_eq_some acceptPat (acceptPat ++ w) w).mpr rfl
        simp only [hm]
        rw [takeWord_of_all_word w hall, if_neg hne]
        rfl

theorem c10_roundtrip_witness :
    acceptActionMatch (("accept:") ++ ("spotify:track:xyz")) = some ("spotify:track:xyz") :=
  c10_roundtrip (some ("https://open.spotify.com/track/xyz")) ("spotify:track:xyz") (by decide)

/-- Claim C9: the link parser is total on absent input — undefined or null
message text and the empty string all parse to no match without throwing,
and the message handler then falls through to the format help reply. -/
theorem c9_total_on_absent :
    spotifyUrlToUri none = none ∧ spotifyUrlToUri (some ("")) = none ∧
    (∀ (lookup : String → Option TrackBody) (chatId : String) (sender : TUser),
      isVotingGroup chatId = false →
        handleMessageBody lookup chatId none sender
          = ([Effect.reply invalidLinkReply], false) ∧
        handleMessageBody lookup chatId (some ("")) sender
          = ([Effect.reply invalidLinkReply], false)) := by
  refine ⟨rfl, rfl, ?_⟩
  intro lookup chatId sender h
  constructor <;> simp [handleMessageBody, h, spotifyUrlToUri]

theorem c9_total_on_absent_witness :
    handleMessageBody failingLookup ("42") none (TUser.mk ("A") none)
      = ([Effect.reply invalidLinkReply], false) :=
  (c9_total_on_absent.2.2 failingLookup ("42") (TUser.mk ("A") none) (by decide)).1

/-- Claim C7 (amended): when the track lookup of a matched link fails, no
vote message is posted, but also no reply of any kind reaches the
requester, and the rejection escapes the per-event handler. -/
theorem c7_lookup_failure : ∀ (lookup : String → Option TrackBody) (chatId : String)
    (mtext : Option String) (sender : TUser) (uri : String),
    isVotingGroup chatId = false →
    spotifyUrlToUri mtext = some uri →
    resolveTrack lookup uri = LookupResult.failed →
    handleMessageBody lookup chatId mtext sender = ([], true) := by
  intro lookup chatId mtext sender uri h1 h2 h3
  simp [handleMessageBody, h1, h2, h3]

theorem c7_lookup_failure_witness :
    handleMessageBody failingLookup ("42") (some ("https://open.spotify.com/track/abc"))
      (TUser.mk ("Max") none) = ([], true) :=
  c7_lookup_failure failingLookup ("42") (some ("https://open.spotify.com/track/abc"))
    (TUser.mk ("Max") none) ("spotify:track:abc") (by decide) (by decide) (by decide)

/-- Claim C7 counterexample to the claim as stated: on a failing lookup the
handler emits no effects at all — in particular no user facing not-found
reply — and the exception escapes the handler (second component true). -/
theorem c7_lookup_failure_cex :
    handleMessageBody failingLookup ("99") (some ("https://open.spotify.com/track/abc"))
      (TUser.mk ("Max") none) = ([], true) := by decide

/-- Claim C8 (amended): a message in the voting channel produces no
parsing, lookup, vote message, or handler reply and nothing escapes; but
the rate limit middleware runs first, so when it denies the message the
wait reply is still sent. -/
theorem c8_votingGroup_frame : ∀ (lookup : String → Option TrackBody) (st : List Nat)
    (now : Nat) (mtext : Option String) (sender : TUser),
    (handleIncoming lookup st now votingGroup mtext sender).2.2 = false ∧
    (handleIncoming lookup st now votingGroup mtext sender).2.1
      = (if (limiterStep trackLimitWindow trackLimitCount st now).1 then ([] : List Effect)
         else [Effect.reply rateLimitReply]) := by
  intro lookup st now mtext sender
  have hv : handleMessageBody lookup votingGroup mtext sender = ([], false) := by
    simp [handleMessageBody, isVotingGroup]
  by_cases hl : (limiterStep trackLimitWindow trackLimitCount st now).1 = true
  · simp [handleIncoming, hl, hv]
  · have hl2 : (limiterStep trackLimitWindow trackLimitCount st now).1 = false := by
      cases hx : (limiterStep trackLimitWindow trackLimitCount st now).1
      · rfl
      · exact absurd hx hl
    simp [handleIncoming, hl2, hv]

/-- Claim C8 counterexample to the claim as stated: a voting channel
message from a user whose window already holds three recent submissions is
denied by the rate limiter, which runs before the voting channel check and
sends the wait reply — so a reply is sent. -/
theorem c8_votingGroup_cex :
    (handleIncoming failingLookup [0, 0, 0] 1000 votingGroup (some ("hi"))
      (TUser.mk ("Mod") none)).2.1 = [Effect.reply rateLimitReply] := by decide

/-- Claim C1 at the failing input: there is no vote ledger, so two accept
events for the same vote message perform two queue appends, and a decline
event arriving after a resolution still edits the message. -/
theorem c1_no_vote_ledger :
    ((acceptActionEffects exampleLookup true ("spotify:track:abc")
        (TUser.mk ("Mod") (some ("mod"))) ("req")
      ++ acceptActionEffects exampleLookup true ("spotify:track:abc")
        (TUser.mk ("Mod") (some ("mod"))) ("req")).filter isQueueEffect).length = 2
    ∧ declineActionEffects (TUser.mk ("Mod2") none) ("req")
        = [Effect.editMessageText ("Von Mod2 abgelehnt: req"),
           Effect.editMessageReplyMarkup] :=
  ⟨by decide, by decide⟩

/-- Claim C6 at the failing input: on an approve vote with successful
queue append exactly one addToQueue with the track URI is emitted and the
vote message is edited with the voter's display name, but the edited text
uses the decline wording (abgelehnt) instead of an approval outcome, while
the handler's own reply announces the queue append. -/
theorem c6_accept_edits_decline_wording :
    acceptActionEffects exampleLookup true ("spotify:track:abc")
        (TUser.mk ("Mod") (some ("mod"))) ("origText")
      = [Effect.addToQueue ("spotify:track:abc"),
         Effect.reply ("Lied zur Queue hinzugefügt: Song • Artist"),
         Effect.editMessageText ("Von Mod (@mod) abgelehnt: origText"),
         Effect.editMessageReplyMarkup] := by decide

/-- Claim C4 at the failing input: after a successful authorization code
grant the granted access token is installed, yet a getSpotify call well
before that token's expiry still issues a refresh call — the grant never
updated the expiry timestamp — and overwrites the installed access token
with the stale module level value. -/
theorem c4_grant_does_not_stop_refresh :
    ((spotifytokenGrantSuccess (startupState 0 none none)
        ("grantedAccess") ("grantedRefresh")).1.apiAccessToken = some ("grantedAccess"))
    ∧ (2000 < 1000 + 3600 * 1000)
    ∧ ((getSpotifyStep (spotifytokenGrantSuccess (startupState 0 none none)
          ("grantedAccess") ("grantedRefresh")).1 2000 true).2
        = [TokenEffect.refreshCall none none])
    ∧ ((getSpotifyStep (spotifytokenGrantSuccess (startupState 0 none none)
          ("grantedAccess") ("grantedRefresh")).1 2000 true).1.apiAccessToken = none) :=
  ⟨by decide, by decide, by decide, by decide⟩

/-- Claim C5 counterexample to the claim as stated: a performed refresh
(trigger plus success continuation) updates the in-memory access token but
emits no durable storage write at all. -/
theorem c5_refresh_persists_nothing_cex :
    ((refreshSpotifyTokenStep (startupState 0 (some ("r0")) (some ("a0"))) 100
        (some ("r0")) (some ("a0")) false).2
      = [TokenEffect.refreshCall (some ("r0")) (some ("a0"))])
    ∧ (((refreshSpotifyTokenStep (startupState 0 (some ("r0")) (some ("a0"))) 100
          (some ("r0")) (some ("a0")) false).2
        ++ (refreshSuccess (refreshSpotifyTokenStep (startupState 0 (some ("r0")) (some ("a0")))
              100 (some ("r0")) (some ("a0")) false).1 ("newAccess") 3600 100).2).filter
          isStorageEffect = [])
    ∧ ((refreshSuccess (refreshSpotifyTokenStep (startupState 0 (some ("r0")) (some ("a0")))
          100 (some ("r0")) (some ("a0")) false).1 ("newAccess") 3600 100).1.apiAccessToken
        = some ("newAccess")) :=
  ⟨by decide, by decide, by decide⟩

/-- Claim C5 (amended): whenever the refresh exchange runs it replaces the
in-memory access token and expiry on success, but persists nothing to
durable storage — the token pair reaches storage only through the
authorization code exchange. -/
theorem c5_refresh_updates_memory_only : ∀ (st : SpotifyState) (now : Nat)
    (r a : Option String) (newTok : String) (expiresIn now2 : Nat),
    st.tokenExpires ≤ now →
    (refreshSpotifyTokenStep st now r a false).2 = [TokenEffect.refreshCall r a] ∧
    ((refreshSpotifyTokenStep st now r a false).2
      ++ (refreshSuccess (refreshSpotifyTokenStep st now r a false).1
            newTok expiresIn now2).2).filter isStorageEffect = [] ∧
    (refreshSuccess (refreshSpotifyTokenStep st now r a false).1
        newTok expiresIn now2).1.apiAccessToken = some newTok ∧
    (refreshSuccess (refreshSpotifyTokenStep st now r a false).1
        newTok expiresIn now2).1.tokenExpires = now2 + expiresIn * 1000 := by
  intro st now r a newTok expiresIn now2 h
  simp [refreshSpotifyTokenStep, refreshSuccess, isStorageEffect, h]

theorem c5_refresh_updates_memory_only_witness :
    (refreshSpotifyTokenStep (startupState 0 none none) 5 none none false).2
        = [TokenEffect.refreshCall none none] ∧
    ((refreshSpotifyTokenStep (startupState 0 none none) 5 none none false).2
      ++ (refreshSuccess (refreshSpotifyTokenStep (startupState 0 none none) 5 none none false).1
            ("n") 10 7).2).filter isStorageEffect = [] ∧
    (refreshSuccess (refreshSpotifyTokenStep (startupState 0 none none) 5 none none false).1
        ("n") 10 7).1.apiAccessToken = some ("n") ∧
    (refreshSuccess (refreshSpotifyTokenStep (startupState 0 none none) 5 none none false).1
        ("n") 10 7).1.tokenExpires = 7 + 10 * 1000 :=
  c5_refresh_updates_memory_only (startupState 0 none none) 5 none none ("n") 10 7 (by decide)

theorem filter_eq_nil_of_false {α : Type} {p : α → Bool} :
    ∀ l : List α, (∀ x ∈ l, p x = false) → l.filter p = [] := by
  intro l
  induction l with
  | nil => intro _; rfl
  | cons a l2 ih =>
    intro h
    have ha := h a (by simp)
    rw [List.filter_cons, ha, if_neg Bool.false_ne_true]
    exact ih (fun x hx => h x (by simp [hx]))

theorem pruneW_subset {W now : Nat} {st : List Nat} : ∀ u ∈ pruneW W now st, u ∈ st := by
  intro u hu
  exact (List.mem_filter.mp hu).1

theorem pruneW_length_le (W now : Nat) (st : List Nat) :
    (pruneW W now st).length ≤ st.length :=
  List.length_filter_le _ _

theorem allowedIn_mem (W N : Nat) : ∀ (ts st : List Nat) (x : Nat),
    x ∈ allowedIn W N st ts → x ∈ ts := by
  intro ts
  induction ts with
  | nil => intro st x hx; simp [allowedIn] at hx
  | cons t ts2 ih =>
    intro st x hx
    unfold allowedIn at hx
    by_cases hb : (limiterStep W N st t).1 = true
    · rw [if_pos hb] at hx
      rcases List.mem_cons.mp hx with hx | hx
      · simp [hx]
      · exact List.mem_cons_of_mem t (ih _ x hx)
    · rw [if_neg hb] at hx
      exact List.mem_cons_of_mem t (ih _ x hx)

theorem allowedIn_window_core (W N : Nat) : ∀ (ts st : List Nat) (a : Nat),
    List.Pairwise (· ≤ ·) ts →
    (∀ u ∈ st, ∀ t ∈ ts, u ≤ t) →
    st.length ≤ N →
    ((allowedIn W N st ts).filter (inWin W a)).length
      + (st.filter (inWin W a)).length ≤ N := by
  intro ts
  induction ts with
  | nil =>
    intro st a _ _ hlen
    simp [allowedIn]
    exact le_trans (List.length_filter_le _ _) hlen
  | cons t ts2 ih =>
    intro st a hsort hle hlen
    have hsort2 : List.Pairwise (· ≤ ·) ts2 := (List.pairwise_cons.mp hsort).2
    have hthead : ∀ x ∈ ts2, t ≤ x := (List.pairwise_cons.mp hsort).1
    have hple : ∀ u ∈ pruneW W t st, ∀ x ∈ ts2, u ≤ x :=
      fun u hu x hx => hle u (pruneW_subset u hu) x (List.mem_cons_of_mem t hx)
    by_cases hdrop : ∀ u ∈ st, inWin W a u = true → t - u ≤ W
    · have hfe : st.filter (inWin W a) = (pruneW W t st).filter (inWin W a) := by
        unfold pruneW
        rw [List.filter_filter]
        apply List.filter_congr
        intro x hx
        cases hwx : inWin W a x with
        | false => simp [hwx]
        | true =>
          have hd := hdrop x hx hwx
          simp [hwx, hd]
      by_cases hallow : (pruneW W t st).length < N
      · have hstep1 : (limiterStep W N st t).1 = true := by
          simp [limiterStep, hallow]
        have hstep2 : (limiterStep W N st t).2 = t :: pruneW W t st := by
          simp [limiterStep, hallow]
        have hrec := ih (t :: pruneW W t st) a hsort2
          (by
            intro u hu x hx
            rcases List.mem_cons.mp hu with hu | hu
            · rw [hu]; exact hthead x hx
            · exact hple u hu x hx)
          (by
            have := hallow
            simp only [List.length_cons]
            omega)
        unfold allowedIn
        rw [if_pos hstep1, hstep2, hfe]
        rw [List.filter_cons] at hrec ⊢
        cases hwt : inWin W a t with
        | false =>
          simp only [hwt] at hrec ⊢
          simp at hrec ⊢
          omega
        | true =>
          simp only [hwt] at hrec ⊢
          simp at hrec ⊢
          omega
      · have hstep1 : (limiterStep W N st t).1 = false := by
          simp [limiterStep, hallow]
        have hstep2 : (limiterStep W N st t).2 = pruneW W t st := by
          simp [limiterStep, hallow]
        have hrec := ih (pruneW W t st) a hsort2 hple
          (le_trans (pruneW_length_le W t st) hlen)
        unfold allowedIn
        rw [if_neg (by simp [hstep1]), hstep2, hfe]
        exact hrec
    · push_neg at hdrop
      rcases hdrop with ⟨u, hu, hwu, hdu⟩
      have hau : a ≤ u ∧ u ≤ a + W := by simpa [inWin] using hwu
      have htbig : a + W < t := by omega
      have hout : (allowedIn W N st (t :: ts2)).filter (inWin W a) = [] := by
        apply filter_eq_nil_of_false
        intro x hx
        have hxts : x ∈ t :: ts2 := allowedIn_mem W N (t :: ts2) st x hx
        have hxt : t ≤ x := by
          rcases List.mem_cons.mp hxts with hx2 | hx2
          · omega
          · exact hthead x hx2
        simp [inWin]
        omega
      rw [hout]
      simp
      exact le_trans (List.length_filter_le _ _) hlen

/-- Claim C3: with the configured window (five minutes) and limit (three),
the rate limiter allows at most three submissions of a user inside any
sliding window of the configured width; a denied call records nothing and
the handler replies with the wait message; and in the concrete scenario of
four submissions within five minutes the first three proceed to lookup and
post a vote message while the fourth only receives the rate limit reply. -/
theorem c3_rate_limiter :
    (∀ (ts : List Nat) (a : Nat), List.Pairwise (· ≤ ·) ts →
       ((allowedIn trackLimitWindow trackLimitCount ([] : List Nat) ts).filter
          (inWin trackLimitWindow a)).length ≤ trackLimitCount)
    ∧ (∀ (st : List Nat) (now : Nat),
        (limiterStep trackLimitWindow trackLimitCount st now).1 = false →
          (limiterStep trackLimitWindow trackLimitCount st now).2
            = pruneW trackLimitWindow now st)
    ∧ (∀ (lookup : String → Option TrackBody) (st : List Nat) (now : Nat)
        (chatId : String) (mtext : Option String) (sender : TUser),
        (limiterStep trackLimitWindow trackLimitCount st now).1 = false →
          (handleIncoming lookup st now chatId mtext sender).2.1
            = [Effect.reply rateLimitReply])
    ∧ ((processMessages exampleLookup ([] : List Nat) scenarioMsgs).map
         (fun l => l.any isSendMessageEffect) = [true, true, true, false])
    ∧ ((processMessages exampleLookup ([] : List Nat) scenarioMsgs).map
         (fun l => l == [Effect.reply rateLimitReply]) = [false, false, false, true]) := by
  refine ⟨?_, ?_, ?_, by decide, by decide⟩
  · intro ts a hs
    have h := allowedIn_window_core trackLimitWindow trackLimitCount ts [] a hs
      (by intro u hu; simp at hu) (by simp)
    simpa using h
  · intro st now h
    by_cases hc : (pruneW trackLimitWindow now st).length < trackLimitCount
    · exfalso
      have : (limiterStep trackLimitWindow trackLimitCount st now).1 = true := by
        simp [limiterStep, hc]
      rw [this] at h
      exact Bool.noConfusion h
    · simp [limiterStep, hc]
  · intro lookup st now chatId mtext sender h
    unfold handleIncoming
    rw [if_neg (by simp [h])]

theorem c3_rate_limiter_witness :
    ((allowedIn trackLimitWindow trackLimitCount ([] : List Nat)
        [0, 60000, 120000, 180000]).filter (inWin trackLimitWindow 0)).length
      ≤ trackLimitCount :=
  c3_rate_limiter.1 [0, 60000, 120000, 180000] 0 (by decide)
